import Mathlib

/-!
Verification of the Pear repository: a shallow embedding of
`src/lib/src/combinators.rs` (the combinator library over the Input/Rewind
abstraction) and `src/codegen/src/parser.rs` (the `switch` pattern/dispatch
parser), together with theorems settling the specification's claims.

The Input cursor is embedded as the list of remaining tokens; a checkpoint is
the saved list; rewinding restores it.  An inner parser is a function from the
remaining tokens to a result that carries the state the parser left behind
(the Rust code mutates the cursor in place, so failures also leave a state).
Looping combinators take a fuel argument; `timeout` marks fuel exhaustion
(the Rust loop would still be running).
-/

namespace Pear

/-- Result of an inner parser: success with a value and the remaining tokens,
or failure with a message and the token state the parser left behind. -/
inductive PRes (ο τ : Type) where
  | ok : ο → List τ → PRes ο τ
  | err : String → List τ → PRes ο τ
deriving DecidableEq

/-- An inner parser over tokens `τ` producing `ο`, embedding Rust's
`FnMut(&mut I) -> Result<O, I>`. -/
def Parser (ο τ : Type) : Type := List τ → PRes ο τ

/-- Result of a looping combinator: as `PRes`, plus `timeout` marking fuel
exhaustion (the Rust loop would not yet have returned). -/
inductive LRes (ο τ : Type) where
  | ok : ο → List τ → LRes ο τ
  | err : String → List τ → LRes ο τ
  | timeout : LRes ο τ
deriving DecidableEq

/-- Prepends a value to the collection of a successful loop result, embedding
`collection.add(v)` performed before the remaining iterations. -/
def LRes.consV (v : ο) : LRes (List ο) τ → LRes (List ο) τ
  | .ok vs s => .ok (v :: vs) s
  | .err e s => .err e s
  | .timeout => .timeout

/-- Modelled from the spec: the `eof` primitive of the parsers module
(`src/lib/src/parsers.rs`, not present under `src/`); per §4.1 it succeeds
without consuming iff no tokens remain, and fails without consuming
otherwise.  Here: the boolean test `eof(input).is_ok()`. -/
def eofOk (ts : List τ) : Bool := ts.isEmpty

/-- Modelled from the spec: the `eat` primitive (§6): succeeds and consumes
iff the next token equals the given token, otherwise fails without
consuming.  `some` is success with the remaining tokens; `none` failure. -/
def eatTok [DecidableEq τ] (t : τ) : List τ → Option (List τ)
  | [] => none
  | c :: rest => if c = t then some rest else none

/-- Embedding of `collect` (src/lib/src/combinators.rs:81-92): loop; if at
eof return the collection; else run `p`, propagating its failure, and add
its value. -/
def collect (p : Parser ο τ) : Nat → List τ → LRes (List ο) τ
  | 0, _ => .timeout
  | fuel+1, ts =>
    if eofOk ts then .ok [] ts
    else
      match p ts with
      | .ok v ts1 => LRes.consV v (collect p fuel ts1)
      | .err e s => .err e s

/-- Embedding of `collect_some` (src/lib/src/combinators.rs:97-107): loop;
run `p`, propagating its failure, add its value; if at eof return. -/
def collect_some (p : Parser ο τ) : Nat → List τ → LRes (List ο) τ
  | 0, _ => .timeout
  | fuel+1, ts =>
    match p ts with
    | .ok v ts1 =>
      if eofOk ts1 then .ok [v] ts1
      else LRes.consV v (collect_some p fuel ts1)
    | .err e s => .err e s

/-- Embedding of `try_collect` (src/lib/src/combinators.rs:112-137): loop; if
at eof return the collection; else mark a checkpoint (the current token
state), run `p`; on success add its value, on failure rewind to the
checkpoint and return the collection. -/
def try_collect (p : Parser ο τ) : Nat → List τ → LRes (List ο) τ
  | 0, _ => .timeout
  | fuel+1, ts =>
    if eofOk ts then .ok [] ts
    else
      match p ts with
      | .ok v ts1 => LRes.consV v (try_collect p fuel ts1)
      | .err _ _ => .ok [] ts

/-- Loop of `delimited_collect` (src/lib/src/combinators.rs:161-174): if
`end` eats, stop; else parse one item (propagating failure); then, when a
separator is present, either eat it and continue or require `end` and
stop. -/
def delimited_go [DecidableEq τ] (item : Parser ο τ) (sep : Option τ) (endT : τ) :
    Nat → List τ → LRes (List ο) τ
  | 0, _ => .timeout
  | fuel+1, ts =>
    match eatTok endT ts with
    | some ts1 => .ok [] ts1
    | none =>
      match item ts with
      | .ok v ts1 =>
        match sep with
        | some sp =>
          match eatTok sp ts1 with
          | some ts2 => LRes.consV v (delimited_go item sep endT fuel ts2)
          | none =>
            match eatTok endT ts1 with
            | some ts3 => .ok [v] ts3
            | none => .err "expected end token" ts1
        | none => LRes.consV v (delimited_go item sep endT fuel ts1)
      | .err e s => .err e s

/-- Embedding of `delimited_collect` (src/lib/src/combinators.rs:144-177):
eat `start` (propagating its failure), then run the loop `delimited_go`. -/
def delimited_collect [DecidableEq τ] (start : τ) (item : Parser ο τ)
    (sep : Option τ) (endT : τ) (fuel : Nat) (ts : List τ) : LRes (List ο) τ :=
  match eatTok start ts with
  | none => .err "expected start token" ts
  | some ts1 => delimited_go item sep endT fuel ts1

/-- Embedding of `series` (src/lib/src/combinators.rs:183-202): loop; parse
one item (propagating failure), then eat a separator and continue, or stop
on the first separator mismatch. -/
def series [DecidableEq τ] (item : Parser ο τ) (sep : τ) :
    Nat → List τ → LRes (List ο) τ
  | 0, _ => .timeout
  | fuel+1, ts =>
    match item ts with
    | .ok v ts1 =>
      match eatTok sep ts1 with
      | some ts2 => LRes.consV v (series item sep fuel ts2)
      | none => .ok [v] ts1
    | .err e s => .err e s

/-- Loop of `trailing_series` (src/lib/src/combinators.rs:219-236) with the
`have_some` flag explicit: an item failure breaks the loop silently when
`have_some` holds (the cursor stays where the failed item left it) and
propagates otherwise; after an item, a separator is eaten to continue (and
only then is `have_some` set) or the loop stops. -/
def trailing_go [DecidableEq τ] (item : Parser ο τ) (sep : τ) :
    Nat → Bool → List τ → LRes (List ο) τ
  | 0, _, _ => .timeout
  | fuel+1, haveSome, ts =>
    match item ts with
    | .ok v ts1 =>
      match eatTok sep ts1 with
      | some ts2 => LRes.consV v (trailing_go item sep fuel true ts2)
      | none => .ok [v] ts1
    | .err e s => if haveSome then .ok [] s else .err e s

/-- Embedding of `trailing_series` (src/lib/src/combinators.rs:209-239):
the loop starts with `have_some = false`. -/
def trailing_series [DecidableEq τ] (item : Parser ο τ) (sep : τ)
    (fuel : Nat) (ts : List τ) : LRes (List ο) τ :=
  trailing_go item sep fuel false ts

/-- `p` consumes at least one token whenever it succeeds; the Rust loops
terminate exactly for such inner parsers. -/
def Consuming (p : Parser ο τ) : Prop :=
  ∀ ts v ts1, p ts = .ok v ts1 → ts1.length < ts.length

/-- `Successes p ts vs ts2`: from state `ts`, a maximal-prefix run of `p`
produces the values `vs` in order and ends in state `ts2`, every step being
a success of `p`. -/
inductive Successes (p : Parser ο τ) : List τ → List ο → List τ → Prop where
  | nil (ts : List τ) : Successes p ts [] ts
  | cons {ts ts1 ts2 : List τ} {v : ο} {vs : List ο} :
      p ts = .ok v ts1 → Successes p ts1 vs ts2 → Successes p ts (v :: vs) ts2

/-- Concrete digit parser used as an inner parser in witnesses: consumes one
token iff it is a decimal digit, and fails without consuming otherwise. -/
def digitP : Parser Char Char := fun ts =>
  match ts with
  | [] => .err "expected digit" []
  | c :: rest => if c.isDigit then .ok c rest else .err "expected digit" (c :: rest)

/-- Concrete item parser over characters: consumes one token iff it is not a
comma, and fails without consuming otherwise. -/
def itemAB : Parser Char Char := fun ts =>
  match ts with
  | [] => .err "expected item" []
  | c :: rest => if c = ',' then .err "expected item" (c :: rest) else .ok c rest

/-- A parser that succeeds with `0` without consuming anything. -/
def pureZero : Parser Nat Char := fun ts => .ok 0 ts

theorem try_collect_ne_err_aux {ο τ : Type} (p : Parser ο τ) (fuel : Nat) :
    ∀ (ts : List τ) (e : String) (s : List τ), try_collect p fuel ts ≠ .err e s := by
  induction fuel with
  | zero => intro ts e s h; simp [try_collect] at h
  | succ f ih =>
    intro ts e s h
    simp only [try_collect] at h
    split at h
    · exact LRes.noConfusion h
    · split at h
      · rename_i v ts1 _
        cases h2 : try_collect p f ts1 with
        | ok vs s2 => rw [h2] at h; simp [LRes.consV] at h
        | err e2 s2 => exact ih ts1 e2 s2 h2
        | timeout => rw [h2] at h; simp [LRes.consV] at h
      · exact LRes.noConfusion h

theorem try_collect_ok_aux {ο τ : Type} (p : Parser ο τ) (hp : Consuming p) (fuel : Nat) :
    ∀ ts : List τ, ts.length < fuel →
      ∃ (vs : List ο) (ts2 : List τ), try_collect p fuel ts = .ok vs ts2 ∧
        Successes p ts vs ts2 ∧ (ts2 = [] ∨ ∃ e s, p ts2 = .err e s) := by
  induction fuel with
  | zero => intro ts h; omega
  | succ f ih =>
    intro ts hlt
    by_cases hts : ts = []
    · subst hts
      exact ⟨[], [], by simp [try_collect, eofOk], Successes.nil [], Or.inl rfl⟩
    · have hne : (ts.isEmpty) = false := by
        cases ts with
        | nil => exact absurd rfl hts
        | cons a l => rfl
      cases hpts : p ts with
      | err e s =>
        refine ⟨[], ts, ?_, Successes.nil ts, Or.inr ⟨e, s, hpts⟩⟩
        simp [try_collect, eofOk, hne, hpts]
      | ok v ts1 =>
        have hlen : ts1.length < ts.length := hp ts v ts1 hpts
        have hlt1 : ts1.length < f := by
          have : ts.length ≤ f := Nat.lt_succ_iff.mp hlt
          omega
        obtain ⟨vs, ts2, h1, h2, h3⟩ := ih ts1 hlt1
        refine ⟨v :: vs, ts2, ?_, Successes.cons hpts h2, h3⟩
        simp [try_collect, eofOk, hne, hpts, h1, LRes.consV]

/-- C1: for every inner parser and every input, `try_collect` never returns
an error; and for every consuming inner parser `p` (one that advances on
success — otherwise the Rust loop never returns) and enough fuel, it
returns `Ok` with exactly the values of the maximal prefix of successful
attempts of `p`, leaving the cursor at the checkpoint taken before the
failed attempt (so nothing the failed attempt consumed remains consumed),
the final state being either end-of-stream or a state where `p` fails. -/
theorem C1_try_collect_total :
    (∀ (ο τ : Type) (p : Parser ο τ) (fuel : Nat) (ts : List τ) (e : String) (s : List τ),
      try_collect p fuel ts ≠ .err e s) ∧
    (∀ (ο τ : Type) (p : Parser ο τ) (fuel : Nat) (ts : List τ),
      Consuming p → ts.length < fuel →
      ∃ (vs : List ο) (ts2 : List τ), try_collect p fuel ts = .ok vs ts2 ∧
        Successes p ts vs ts2 ∧ (ts2 = [] ∨ ∃ e s, p ts2 = .err e s)) :=
  ⟨fun _ _ p fuel ts e s => try_collect_ne_err_aux p fuel ts e s,
   fun _ _ p fuel ts hp hf => try_collect_ok_aux p hp fuel ts hf⟩

/-- C1 witness: the theorem applied to the concrete digit parser on the
input `"1x"` with fuel 5. -/
theorem C1_try_collect_total_witness :
    (∀ (e : String) (s : List Char), try_collect digitP 5 ['1', 'x'] ≠ .err e s) ∧
    ∃ (vs : List Char) (ts2 : List Char),
      try_collect digitP 5 ['1', 'x'] = .ok vs ts2 ∧
        Successes digitP ['1', 'x'] vs ts2 ∧
        (ts2 = [] ∨ ∃ e s, digitP ts2 = .err e s) :=
  ⟨fun e s => C1_try_collect_total.1 Char Char digitP 5 ['1', 'x'] e s,
   C1_try_collect_total.2 Char Char digitP 5 ['1', 'x']
     (by
       intro ts v ts1 h
       cases ts with
       | nil => simp [digitP] at h
       | cons c rest =>
         simp only [digitP] at h
         split at h
         · cases h; simp
         · cases h)
     (by decide)⟩

/-- C4: on input `"a,b,"` (item, separator, item, trailing separator),
`series` fails — after the trailing separator it requires another item whose
failure propagates — while `trailing_series` succeeds with `[a, b]`; in
`trailing_series` the failure of the very first item always propagates, and
once at least one item succeeded and a separator was just consumed
(`have_some` set), an item failure ends the loop silently with success. -/
theorem C4_series_vs_trailing :
    (series itemAB ',' 10 ['a', ',', 'b', ','] = .err "expected item" []) ∧
    (trailing_series itemAB ',' 10 ['a', ',', 'b', ','] = .ok ['a', 'b'] []) ∧
    (∀ (ο τ : Type) (inst : DecidableEq τ) (p : Parser ο τ) (sep : τ)
      (f : Nat) (ts : List τ) (e : String) (s : List τ),
      p ts = .err e s → trailing_series p sep (f + 1) ts = .err e s) ∧
    (∀ (ο τ : Type) (inst : DecidableEq τ) (p : Parser ο τ) (sep : τ)
      (f : Nat) (ts : List τ) (e : String) (s : List τ),
      p ts = .err e s → trailing_go p sep (f + 1) true ts = .ok [] s) := by
  refine ⟨by decide, by decide, ?_, ?_⟩
  · intro ο τ inst p sep f ts e s h
    simp [trailing_series, trailing_go, h]
  · intro ο τ inst p sep f ts e s h
    simp [trailing_go, h]

/-- C4 witness: the universally quantified parts of the theorem applied to
the concrete item parser at the state `[',']`, where it fails. -/
theorem C4_series_vs_trailing_witness :
    trailing_series itemAB ',' 3 [','] = .err "expected item" [','] ∧
    trailing_go itemAB ',' 3 true [','] = .ok [] [','] :=
  ⟨C4_series_vs_trailing.2.2.1 Char Char inferInstance itemAB ',' 2 [',']
      "expected item" [','] (by decide),
   C4_series_vs_trailing.2.2.2 Char Char inferInstance itemAB ',' 2 [',']
      "expected item" [','] (by decide)⟩

/-- C5 counterexample: the claim says `collect_some(p)` fails on empty input
for every inner parser `p`; for the parser that succeeds without consuming,
`collect_some` on empty input succeeds with a one-element collection. -/
theorem C5_counterexample :
    collect_some pureZero 1 [] = .ok [0] [] ∧
    ¬∃ (e : String) (s : List Char), collect_some pureZero 1 [] = .err e s := by
  constructor
  · decide
  · rintro ⟨e, s, h⟩
    rw [show collect_some pureZero 1 ([] : List Char) = .ok [0] [] from by decide] at h
    exact LRes.noConfusion h

/-- C5 (amended): on empty input `collect(p)` succeeds with the empty
collection for every inner parser `p` without invoking `p` (the result does
not depend on `p`), while `collect_some(p)` invokes `p` first and propagates
its failure: it fails whenever `p` fails at end-of-stream. -/
theorem C5_collect_empty :
    (∀ (ο τ : Type) (p : Parser ο τ) (f : Nat), collect p (f + 1) [] = .ok [] []) ∧
    (∀ (ο τ : Type) (p : Parser ο τ) (f : Nat) (e : String) (s : List τ),
      p [] = .err e s → collect_some p (f + 1) [] = .err e s) := by
  constructor
  · intro ο τ p f
    simp [collect, eofOk]
  · intro ο τ p f e s h
    simp [collect_some, h]

/-- C5 witness: the theorem applied to the digit parser, which fails on
empty input, with fuel 1. -/
theorem C5_collect_empty_witness :
    collect digitP 1 [] = .ok [] [] ∧
    collect_some digitP 1 [] = .err "expected digit" [] :=
  ⟨C5_collect_empty.1 Char Char digitP 0,
   C5_collect_empty.2 Char Char digitP 0 "expected digit" [] (by decide)⟩

/-- C6: `delimited_collect` consumes `start` (failing on any input where the
start token is absent), then loops: if `end` matches it stops; otherwise it
parses one item, then either consumes the separator and continues or
requires `end` and stops.  On `"[1,2,3]"` with bracket delimiters, comma
separator and digit items it returns `[1,2,3]` with the cursor at
end-of-stream; on `"[]"` it returns the empty collection; a missing item or
a missing terminating `end` is an error. -/
theorem C6_delimited_collect :
    (delimited_collect '[' digitP (some ',') ']' 10 ['[', '1', ',', '2', ',', '3', ']'] =
      .ok ['1', '2', '3'] []) ∧
    (delimited_collect '[' digitP (some ',') ']' 10 ['[', ']'] = .ok [] []) ∧
    (∀ (ο τ : Type) (inst : DecidableEq τ) (start : τ) (p : Parser ο τ)
      (sep : Option τ) (endT : τ) (f : Nat) (ts : List τ),
      eatTok start ts = none →
      delimited_collect start p sep endT f ts = .err "expected start token" ts) ∧
    (delimited_collect '[' digitP (some ',') ']' 10 ['[', '1', ',', '2'] =
      .err "expected end token" []) ∧
    (delimited_collect '[' digitP (some ',') ']' 10 ['[', '1', ',', ','] =
      .err "expected digit" [',']) := by
  refine ⟨by decide, by decide, ?_, by decide, by decide⟩
  intro ο τ inst start p sep endT f ts h
  simp [delimited_collect, h]

/-- C6 witness: the start-missing part of the theorem applied at the input
`"1]"`, whose first token is not the start token. -/
theorem C6_delimited_collect_witness :
    delimited_collect '[' digitP (some ',') ']' 10 ['1', ']'] =
      .err "expected start token" ['1', ']'] :=
  C6_delimited_collect.2.2.1 Char Char inferInstance '[' digitP (some ',') ']' 10
    ['1', ']'] (by decide)

/-!
## Embedding of `src/codegen/src/parser.rs`

Token streams of the host macro system are trees: a token is an identifier,
an integer literal, one of the punctuation tokens used by the grammar, or a
delimited group holding a nested stream.  Every token carries a span; a
stream additionally records the span reported at its end (for a group, the
group's own span).  Spans, identifiers, expressions and diagnostics are
modelled after the external `syn`/`proc-macro2` libraries, which are not
part of this repository; the simplified expression grammar (integer
literals, path variables, calls of a single-segment path) covers every form
the repository's parser feeds to them.
-/

/-- A source span, modelled from the external `proc-macro2` library: an
opaque region with a start and an end; `join` spans from the start of the
first to the end of the second. -/
structure Span where
  lo : Nat
  hi : Nat
deriving DecidableEq

/-- Modelled from the external `proc-macro2` library: `Span::join`. -/
def Span.join (a b : Span) : Span := ⟨a.lo, b.hi⟩

/-- Modelled from the external `syn` library: an identifier token; equality
of identifiers compares the name only, never the span. -/
structure Ident where
  name : String
  sp : Span
deriving DecidableEq

/-- A diagnostic as produced by the repository's `diagnostics` module (not
under `src/`), modelled from the spec (§6): a primary message and span plus
zero or more secondary (span, note) pairs. -/
structure Diag where
  span : Span
  msg : String
  notes : List (Span × String)
deriving DecidableEq

/-- Modelled from the spec (§6): `SpanExt::error` builds a diagnostic with
the given primary span and message and no secondary notes. -/
def Span.error (sp : Span) (msg : String) : Diag := ⟨sp, msg, []⟩

/-- Modelled from the spec (§6): `Diagnostic::span_note` appends one
secondary (span, note) pair. -/
def Diag.span_note (d : Diag) (sp : Span) (note : String) : Diag :=
  ⟨d.span, d.msg, d.notes ++ [(sp, note)]⟩

/-- Group delimiters of the host token trees. -/
inductive Delim where
  | paren
  | bracket
  | brace
deriving DecidableEq

/-- A token tree of the macro input stream. -/
inductive CTok where
  | identTok (s : String) (sp : Span)
  | litInt (n : Nat) (sp : Span)
  | atSign (sp : Span)
  | underscoreTok (sp : Span)
  | fatArrow (sp : Span)
  | commaTok (sp : Span)
  | pipeTok (sp : Span)
  | semiTok (sp : Span)
  | group (d : Delim) (inner : List CTok) (sp : Span)

/-- The span a token reports. -/
def CTok.span : CTok → Span
  | .identTok _ sp => sp
  | .litInt _ sp => sp
  | .atSign sp => sp
  | .underscoreTok sp => sp
  | .fatArrow sp => sp
  | .commaTok sp => sp
  | .pipeTok sp => sp
  | .semiTok sp => sp
  | .group _ _ sp => sp

/-- A parse stream: the remaining tokens plus the span reported by the
cursor at end of stream (for a group's inner stream, the group's span). -/
structure CStream where
  toks : List CTok
  endSp : Span

/-- Modelled from the external `syn` library: `cursor().span()` — the span
of the next token, or the stream's end span when no tokens remain. -/
def CStream.cursorSpan (s : CStream) : Span :=
  match s.toks with
  | t :: _ => t.span
  | [] => s.endSp

/-- Result of a stream parser: success or a diagnostic, each with the
stream state left behind; `timeout` marks fuel exhaustion of a loop. -/
inductive SynRes (α : Type) where
  | ok : α → CStream → SynRes α
  | err : Diag → CStream → SynRes α
  | timeout : SynRes α

/-- A parser over a `CStream`. -/
def SynP (α : Type) : Type := CStream → SynRes α

/-- Sequencing mirroring Rust's `?`: on success continue, on failure (or
fuel exhaustion) propagate. -/
def SynRes.bind (r : SynRes α) (f : α → CStream → SynRes β) : SynRes β :=
  match r with
  | .ok v s => f v s
  | .err e s => .err e s
  | .timeout => .timeout

/-- Prepends a value to the list of a successful result. -/
def SynRes.consV (v : α) : SynRes (List α) → SynRes (List α)
  | .ok vs s => .ok (v :: vs) s
  | .err e s => .err e s
  | .timeout => .timeout

/-- Modelled from the external `syn` library: `input.parse::<syn::Ident>()`
consumes the next token iff it is an identifier; on failure nothing is
consumed. -/
def parseIdent : SynP Ident := fun s =>
  match s.toks with
  | .identTok n sp :: rest => .ok ⟨n, sp⟩ ⟨rest, s.endSp⟩
  | _ => .err (Span.error s.cursorSpan "expected identifier") s

/-- Modelled from the external `syn` library: parsing the `@` token. -/
def parseAt : SynP Span := fun s =>
  match s.toks with
  | .atSign sp :: rest => .ok sp ⟨rest, s.endSp⟩
  | _ => .err (Span.error s.cursorSpan "expected at sign") s

/-- Modelled from the external `syn` library: parsing the `_` token. -/
def parseUnderscore : SynP Span := fun s =>
  match s.toks with
  | .underscoreTok sp :: rest => .ok sp ⟨rest, s.endSp⟩
  | _ => .err (Span.error s.cursorSpan "expected wildcard") s

/-- Modelled from the external `syn` library: parsing the `=>` token. -/
def parseFatArrow : SynP Span := fun s =>
  match s.toks with
  | .fatArrow sp :: rest => .ok sp ⟨rest, s.endSp⟩
  | _ => .err (Span.error s.cursorSpan "expected fat arrow") s

/-- Modelled from the external `syn` library: parsing the `,` token. -/
def parseComma : SynP Span := fun s =>
  match s.toks with
  | .commaTok sp :: rest => .ok sp ⟨rest, s.endSp⟩
  | _ => .err (Span.error s.cursorSpan "expected comma") s

/-- Modelled from the external `syn` library: parsing the `|` token. -/
def parsePipe : SynP Span := fun s =>
  match s.toks with
  | .pipeTok sp :: rest => .ok sp ⟨rest, s.endSp⟩
  | _ => .err (Span.error s.cursorSpan "expected pipe") s

/-- Modelled from the external `syn` library: parsing the `;` token. -/
def parseSemi : SynP Span := fun s =>
  match s.toks with
  | .semiTok sp :: rest => .ok sp ⟨rest, s.endSp⟩
  | _ => .err (Span.error s.cursorSpan "expected semicolon") s

/-- Modelled from the external `syn` library: `syn::Type`, restricted to the
single-identifier types the repository's grammar feeds it. -/
def parseType : SynP Ident := parseIdent

/-- Embedding of `ParseStreamExt::parse_group`
(src/codegen/src/parser.rs:26-38): the next token must be a group with the
given delimiter; the inner parser runs on its contents (whose end span is
the group's span) and the outer stream advances past the group. -/
def parse_group (d : Delim) (p : SynP α) : SynP α := fun s =>
  match s.toks with
  | .group d2 inner sp :: rest =>
    if d2 = d then
      match p ⟨inner, sp⟩ with
      | .ok v _ => .ok v ⟨rest, s.endSp⟩
      | .err e s2 => .err e s2
      | .timeout => .timeout
    else .err (Span.error sp "expected different delimiter") s
  | _ => .err (Span.error s.cursorSpan "expected group") s

/-- Embedding of `ParseStreamExt::try_parse`
(src/codegen/src/parser.rs:40-47): run the parser on a fork; on failure the
original stream is untouched and the error is returned; on success the
parser is re-run on the stream itself. -/
def try_parse (p : SynP α) : SynP α := fun s =>
  match p s with
  | .ok _ _ => p s
  | .err e _ => .err e s
  | .timeout => .timeout

/-- A simplified `syn` expression: an integer literal, a path variable, or
a call of a single-segment path. -/
inductive Expr where
  | lit (n : Nat) (sp : Span)
  | var (i : Ident)
  | call (f : Ident) (parenSp : Span) (args : List Expr)

/-- Modelled from the external `syn` library: `syn::ExprCall` as built by
the repository's `parse_expr_call`: a single-segment path, the span of the
parenthesis token, and the argument expressions. -/
structure ExprCall where
  func : Ident
  parenSp : Span
  args : List Expr

/-- Modelled from the external `syn` library: `Spanned` for an `ExprCall` —
the whole call's span, from the path to the closing parenthesis. -/
def ExprCall.span (e : ExprCall) : Span := e.func.sp.join e.parenSp

/-- Modelled from the external `syn` library:
`Punctuated::<T, Token![,]>::parse_terminated` — items separated by commas,
an optional trailing comma, running until the stream is empty. -/
def parse_terminated (p : SynP α) : Nat → SynP (List α)
  | 0, _ => .timeout
  | fuel+1, s =>
    if s.toks.isEmpty then .ok [] s
    else
      (p s).bind fun v s1 =>
        if s1.toks.isEmpty then .ok [v] s1
        else
          (parseComma s1).bind fun _ s2 =>
            SynRes.consV v (parse_terminated p fuel s2)

/-- Modelled from the external `syn` library: `syn::Expr::parse`, restricted
to the simplified grammar above: an integer literal, or an identifier that
is a call when a parenthesised group follows and a variable otherwise. -/
def parseExpr : Nat → SynP Expr
  | 0, _ => .timeout
  | fuel+1, s =>
    match s.toks with
    | .litInt n sp :: rest => .ok (.lit n sp) ⟨rest, s.endSp⟩
    | .identTok nm sp :: .group .paren inner gsp :: rest =>
      match parse_terminated (parseExpr fuel) fuel ⟨inner, gsp⟩ with
      | .ok args _ => .ok (.call ⟨nm, sp⟩ gsp args) ⟨rest, s.endSp⟩
      | .err e s2 => .err e s2
      | .timeout => .timeout
    | .identTok nm sp :: rest => .ok (.var ⟨nm, sp⟩) ⟨rest, s.endSp⟩
    | _ => .err (Span.error s.cursorSpan "expected expression") s

/-- Embedding of `parse_expr_call` (src/codegen/src/parser.rs:93-106):
parse a path, record the cursor span as the parenthesis span, then parse
the comma-punctuated arguments inside a parenthesised group. -/
def parse_expr_call (fuel : Nat) : SynP ExprCall := fun s =>
  (parseIdent s).bind fun path s1 =>
    let parenSp := s1.cursorSpan
    (parse_group .paren (parse_terminated (parseExpr fuel) fuel) s1).bind fun args s2 =>
      .ok ⟨path, parenSp, args⟩ s2

/-- Embedding of the `CallPattern` struct (src/codegen/src/parser.rs:49-54):
an optional capture name, an optional `@` marker (its span), and the call
expression. -/
structure CallPattern where
  name : Option Ident
  atSpan : Option Span
  expr : ExprCall

/-- The speculative prefix attempted by `CallPattern::parse`
(src/codegen/src/parser.rs:110-114): an identifier followed by `@`. -/
def nameAtP : SynP (Ident × Span) := fun s =>
  (parseIdent s).bind fun id s1 =>
    (parseAt s1).bind fun atSp s2 =>
      .ok (id, atSp) s2

/-- Embedding of `CallPattern::parse` (src/codegen/src/parser.rs:108-123):
try the `identifier @` prefix speculatively (`try_parse`, converted with
`.ok()`); then parse the mandatory call expression, from the original
position when the prefix attempt failed. -/
def CallPattern.parse (fuel : Nat) : SynP CallPattern := fun s =>
  match try_parse nameAtP s with
  | .ok (id, atSp) s1 =>
    (parse_expr_call fuel s1).bind fun e s2 =>
      .ok ⟨some id, some atSp, e⟩ s2
  | .err _ _ =>
    (parse_expr_call fuel s).bind fun e s2 =>
      .ok ⟨none, none, e⟩ s2
  | .timeout => .timeout

/-- Embedding of the `Pattern` enum (src/codegen/src/parser.rs:72-76). -/
inductive Pattern where
  | wild (sp : Span)
  | calls (cs : List CallPattern)

/-- Modelled from the external `syn` library: equality of optional
identifiers as used by `first_name != call.name` — `syn::Ident` equality
compares names, not spans. -/
def identOptEq : Option Ident → Option Ident → Bool
  | none, none => true
  | some a, some b => a.name == b.name
  | _, _ => false

/-- Loop of `Pattern::validate` (src/codegen/src/parser.rs:129-146): scan
the alternatives; at the first whose name differs from the first
alternative's, report at its name span (or, unnamed, at its call
expression's span), adding a secondary note at the declaration when the
first alternative is named. -/
def Pattern.validateGo (firstName : Option Ident) : List CallPattern → Except Diag Unit
  | [] => .ok ()
  | call :: rest =>
    if identOptEq firstName call.name then Pattern.validateGo firstName rest
    else
      let e :=
        match call.name with
        | some ident => Span.error ident.sp "captured name differs from declaration"
        | none => Span.error call.expr.span "expected capture name due to previous declaration"
      let e :=
        match firstName with
        | some p => e.span_note p.sp "declared here"
        | none => e
      .error e

/-- Embedding of `Pattern::validate` (src/codegen/src/parser.rs:126-150):
wildcards pass trivially; a `Calls` pattern is scanned against the first
alternative's capture name. -/
def Pattern.validate : Pattern → Except Diag Unit
  | .wild _ => .ok ()
  | .calls cs => Pattern.validateGo (cs.head?.bind fun c => c.name) cs

/-- Embedding of the `Case` struct (src/codegen/src/parser.rs:78-83). -/
structure Case where
  pattern : Pattern
  expr : Expr
  span : Span

/-- Modelled from the external `syn` library:
`Punctuated::<T, Token![|]>::parse_separated_nonempty` — one mandatory
item, then further items each after a `|`, stopping when no `|` follows. -/
def parse_separated_nonempty (p : SynP α) : Nat → SynP (List α)
  | 0, _ => .timeout
  | fuel+1, s =>
    (p s).bind fun v s1 =>
      match s1.toks with
      | .pipeTok _ :: _ =>
        (parsePipe s1).bind fun _ s2 =>
          SynRes.consV v (parse_separated_nonempty p fuel s2)
      | _ => .ok [v] s1

/-- Embedding of `Case`'s `Parse` impl (src/codegen/src/parser.rs:153-172):
record the start span; try `_`, else parse a nonempty `|`-separated list of
call patterns; validate the pattern; then `=>` and the result expression;
the case span joins the start span with the cursor span after the
expression. -/
def Case.parse (fuel : Nat) : SynP Case := fun s =>
  let caseSpanStart := s.cursorSpan
  let patR : SynRes Pattern :=
    match parseUnderscore s with
    | .ok sp s1 => .ok (.wild sp) s1
    | .err _ _ =>
      match parse_separated_nonempty (CallPattern.parse fuel) fuel s with
      | .ok cs s1 => .ok (.calls cs) s1
      | .err e s2 => .err e s2
      | .timeout => .timeout
    | .timeout => .timeout
  patR.bind fun pattern s1 =>
    match pattern.validate with
    | .error e => .err e s1
    | .ok _ =>
      (parseFatArrow s1).bind fun _ s2 =>
        (parseExpr fuel s2).bind fun expr s3 =>
          .ok ⟨pattern, expr, caseSpanStart.join s3.cursorSpan⟩ s3

/-- Embedding of the `Switch` struct (src/codegen/src/parser.rs:85-90): only
the input expression, the output type and the cases are retained. -/
structure Switch where
  input : Expr
  output : Ident
  cases : List Case

/-- The header parsed inside the bracketed group by `Switch`'s `Parse` impl
(src/codegen/src/parser.rs:177-186): identifier, `;`, input expression,
`;`, marker expression, `;`, output type. -/
def headerP (fuel : Nat) : SynP (Ident × Expr × Expr × Ident) := fun s =>
  (parseIdent s).bind fun info s1 =>
    (parseSemi s1).bind fun _ s2 =>
      (parseExpr fuel s2).bind fun inp s3 =>
        (parseSemi s3).bind fun _ s4 =>
          (parseExpr fuel s4).bind fun marker s5 =>
            (parseSemi s5).bind fun _ s6 =>
              (parseType s6).bind fun output s7 =>
                .ok (info, inp, marker, output) s7

/-- The wildcard-placement scan of `Switch`'s `Parse` impl
(src/codegen/src/parser.rs:197-201): over all cases but the last, the first
wildcard case is reported at that case's own span. -/
def wildcardScanGo : List Case → Option Diag
  | [] => none
  | c :: rest =>
    match c.pattern with
    | .wild _ => some (Span.error c.span "`_` matches can only appear as the last case")
    | .calls _ => wildcardScanGo rest

/-- The `cases.iter().take(cases.len() - 1)` restriction of the scan. -/
def wildcardScan (cases : List Case) : Option Diag :=
  wildcardScanGo (cases.take (cases.length - 1))

/-- Embedding of `Switch`'s `Parse` impl (src/codegen/src/parser.rs:175-205):
parse the bracketed header (discarding the identifier and the marker
expression), then the comma-terminated cases; reject trailing tokens, an
empty case sequence, and a wildcard case that is not last. -/
def Switch.parse (fuel : Nat) : SynP Switch := fun stream =>
  (parse_group .bracket (headerP fuel) stream).bind fun h s1 =>
    (parse_terminated (Case.parse fuel) fuel s1).bind fun cases s2 =>
      if !s2.toks.isEmpty then
        .err (Span.error s2.cursorSpan "trailing characters; expected eof") s2
      else if cases.isEmpty then
        .err (Span.error s2.cursorSpan "switch cannot be empty") s2
      else
        match wildcardScan cases with
        | some d => .err d s2
        | none => .ok ⟨h.2.1, h.2.2.2, cases⟩ s2

/-! ## Concrete streams and values used by the claims on the switch parser -/

/-- The switch `[sw; 7; 8; u32] A(x) => 1, _ => 2, B(y) => 3` as a token
stream, every token carrying a distinct span. -/
def c2Stream : CStream :=
  ⟨[.group .bracket [.identTok "sw" ⟨1,1⟩, .semiTok ⟨2,2⟩, .litInt 7 ⟨3,3⟩, .semiTok ⟨4,4⟩,
      .litInt 8 ⟨5,5⟩, .semiTok ⟨6,6⟩, .identTok "u32" ⟨7,7⟩] ⟨0,0⟩,
    .identTok "A" ⟨8,8⟩, .group .paren [.identTok "x" ⟨10,10⟩] ⟨9,9⟩, .fatArrow ⟨11,11⟩,
      .litInt 1 ⟨12,12⟩, .commaTok ⟨13,13⟩,
    .underscoreTok ⟨14,14⟩, .fatArrow ⟨15,15⟩, .litInt 2 ⟨16,16⟩, .commaTok ⟨17,17⟩,
    .identTok "B" ⟨18,18⟩, .group .paren [.identTok "y" ⟨20,20⟩] ⟨19,19⟩, .fatArrow ⟨21,21⟩,
      .litInt 3 ⟨22,22⟩], ⟨23,23⟩⟩

/-- The case sequence of `c2Stream` (the tokens after the header group). -/
def c2Body : CStream :=
  ⟨[.identTok "A" ⟨8,8⟩, .group .paren [.identTok "x" ⟨10,10⟩] ⟨9,9⟩, .fatArrow ⟨11,11⟩,
      .litInt 1 ⟨12,12⟩, .commaTok ⟨13,13⟩,
    .underscoreTok ⟨14,14⟩, .fatArrow ⟨15,15⟩, .litInt 2 ⟨16,16⟩, .commaTok ⟨17,17⟩,
    .identTok "B" ⟨18,18⟩, .group .paren [.identTok "y" ⟨20,20⟩] ⟨19,19⟩, .fatArrow ⟨21,21⟩,
      .litInt 3 ⟨22,22⟩], ⟨23,23⟩⟩

/-- The case `A(x) => 1` as parsed from `c2Body`. -/
def c2Case1 : Case :=
  ⟨.calls [⟨none, none, ⟨⟨"A", ⟨8,8⟩⟩, ⟨9,9⟩, [.var ⟨"x", ⟨10,10⟩⟩]⟩⟩], .lit 1 ⟨12,12⟩, ⟨8,13⟩⟩

/-- The wildcard case `_ => 2` as parsed from `c2Body`. -/
def c2Case2 : Case := ⟨.wild ⟨14,14⟩, .lit 2 ⟨16,16⟩, ⟨14,17⟩⟩

/-- The case `B(y) => 3` as parsed from `c2Body`. -/
def c2Case3 : Case :=
  ⟨.calls [⟨none, none, ⟨⟨"B", ⟨18,18⟩⟩, ⟨19,19⟩, [.var ⟨"y", ⟨20,20⟩⟩]⟩⟩], .lit 3 ⟨22,22⟩, ⟨18,23⟩⟩

/-- C2 counterexample: on the switch with cases
`[A(x) => 1, _ => 2, B(y) => 3]` the parse is rejected with its primary span
equal to the span of the wildcard case `_ => 2` — which differs from the
span of the case `B(y) => 3` that the claim says is cited. -/
theorem C2_counterexample :
    Switch.parse 10 c2Stream =
      .err (Span.error ⟨14,17⟩ "`_` matches can only appear as the last case") ⟨[], ⟨23,23⟩⟩ ∧
    parse_terminated (Case.parse 10) 10 c2Body =
      .ok [c2Case1, c2Case2, c2Case3] ⟨[], ⟨23,23⟩⟩ ∧
    c2Case2.span = ⟨14,17⟩ ∧ c2Case3.span = ⟨18,23⟩ ∧ (⟨14,17⟩ : Span) ≠ (⟨18,23⟩ : Span) :=
  ⟨rfl, rfl, rfl, rfl, by decide⟩

theorem wildcardScanGo_append (pre l : List Case)
    (h : ∀ c ∈ pre, ∃ cs, c.pattern = .calls cs) :
    wildcardScanGo (pre ++ l) = wildcardScanGo l := by
  induction pre with
  | nil => rfl
  | cons c rest ih =>
    obtain ⟨cs, hc⟩ := h c (List.mem_cons_self c rest)
    simp only [List.cons_append, wildcardScanGo, hc]
    exact ih fun c2 hc2 => h c2 (List.mem_cons_of_mem c hc2)

/-- C2 (amended): a switch whose case sequence has a wildcard case that is
not last is rejected with the primary span of the wildcard case itself —
not of the case after it; generally, when no case before the wildcard is
itself a wildcard, the placement scan reports at the wildcard case's span,
and concretely for `[A(x) => 1, _ => 2, B(y) => 3]` the error's span is the
span of `_ => 2`. -/
theorem C2_wildcard_cites_wildcard :
    (∀ (pre : List Case) (c : Case) (post : List Case),
      (∀ c2 ∈ pre, ∃ cs, c2.pattern = .calls cs) →
      (∃ sp, c.pattern = .wild sp) →
      post ≠ [] →
      wildcardScan (pre ++ c :: post) =
        some (Span.error c.span "`_` matches can only appear as the last case")) ∧
    Switch.parse 10 c2Stream =
      .err (Span.error c2Case2.span "`_` matches can only appear as the last case")
        ⟨[], ⟨23,23⟩⟩ := by
  constructor
  · intro pre c post hpre hc hpost
    obtain ⟨sp, hsp⟩ := hc
    obtain ⟨q, qs, rfl⟩ : ∃ q qs, post = q :: qs := by
      cases post with
      | nil => exact absurd rfl hpost
      | cons q qs => exact ⟨q, qs, rfl⟩
    have hlen : (pre ++ c :: q :: qs).length - 1 = pre.length + (qs.length + 1) := by
      simp [List.length_append]
    have htake : (pre ++ c :: q :: qs).take (pre.length + (qs.length + 1)) =
        pre ++ c :: (q :: qs).take qs.length := by
      rw [List.take_append]
      rfl
    rw [wildcardScan, hlen, htake, wildcardScanGo_append pre _ hpre]
    simp [wildcardScanGo, hsp]
  · rfl

/-- C2 witness: the scan applied to the concrete parsed cases of
`c2Stream`. -/
theorem C2_wildcard_cites_wildcard_witness :
    wildcardScan [c2Case1, c2Case2, c2Case3] =
      some (Span.error c2Case2.span "`_` matches can only appear as the last case") :=
  C2_wildcard_cites_wildcard.1 [c2Case1] c2Case2 [c2Case3]
    (by
      intro c2 hc2
      simp only [List.mem_singleton] at hc2
      exact ⟨_, by rw [hc2]; rfl⟩)
    ⟨⟨14,14⟩, rfl⟩
    (by simp)

/-- The unnamed alternative `f(1)` of a `Calls` pattern. -/
def c3cpF : CallPattern := ⟨none, none, ⟨⟨"f", ⟨1,1⟩⟩, ⟨2,2⟩, [.lit 1 ⟨3,3⟩]⟩⟩

/-- The named alternative `m @ g(2)` of a `Calls` pattern. -/
def c3cpM : CallPattern := ⟨some ⟨"m", ⟨5,5⟩⟩, some ⟨6,6⟩, ⟨⟨"g", ⟨7,7⟩⟩, ⟨8,8⟩, [.lit 2 ⟨9,9⟩]⟩⟩

/-- The named alternative `n @ f(1)` of a `Calls` pattern. -/
def c3cpN : CallPattern := ⟨some ⟨"n", ⟨11,11⟩⟩, some ⟨12,12⟩, ⟨⟨"f", ⟨13,13⟩⟩, ⟨14,14⟩, [.lit 1 ⟨15,15⟩]⟩⟩

/-- C3 counterexample: for the pattern `f(1) | m @ g(2)` — the first
alternative unnamed, the second named — validation fails at `m`'s span but
the error carries no secondary note, refuting that every name mismatch
carries a secondary note at the first alternative's declaration span. -/
theorem C3_counterexample :
    Pattern.validate (.calls [c3cpF, c3cpM]) =
      .error ⟨⟨5,5⟩, "captured name differs from declaration", []⟩ := rfl

/-- The diagnostic `Pattern::validate` builds for the first mismatching
alternative `ci` against the first alternative `c0`: primary span at `ci`'s
name (or, unnamed, at its call expression), and a secondary note at `c0`'s
declaration exactly when `c0` is named. -/
def mismatchDiag (c0 ci : CallPattern) : Diag :=
  let e :=
    match ci.name with
    | some ident => Span.error ident.sp "captured name differs from declaration"
    | none => Span.error ci.expr.span "expected capture name due to previous declaration"
  match c0.name with
  | some p => e.span_note p.sp "declared here"
  | none => e

theorem identOptEq_refl (o : Option Ident) : identOptEq o o = true := by
  cases o with
  | none => rfl
  | some a => simp [identOptEq]

theorem validateGo_ok (name : Option Ident) (l : List CallPattern)
    (h : ∀ c ∈ l, identOptEq name c.name = true) :
    Pattern.validateGo name l = .ok () := by
  induction l with
  | nil => rfl
  | cons c rest ih =>
    have hc := h c (List.mem_cons_self c rest)
    simp only [Pattern.validateGo, hc, if_true]
    exact ih fun c2 hc2 => h c2 (List.mem_cons_of_mem c hc2)

theorem validateGo_append (name : Option Ident) (pre l : List CallPattern)
    (h : ∀ c ∈ pre, identOptEq name c.name = true) :
    Pattern.validateGo name (pre ++ l) = Pattern.validateGo name l := by
  induction pre with
  | nil => rfl
  | cons c rest ih =>
    have hc := h c (List.mem_cons_self c rest)
    simp only [List.cons_append, Pattern.validateGo, hc, if_true]
    exact ih fun c2 hc2 => h c2 (List.mem_cons_of_mem c hc2)

/-- C3 (amended): for a `Calls` pattern `c0, …, cn`, validation succeeds
when every alternative's capture name equals `c0`'s (and for every wildcard
pattern); at the first `ci` whose name differs, it fails with primary span
at `ci`'s name when `ci` is named and at `ci`'s call expression when it is
unnamed, and with a secondary note at `c0`'s declaration span exactly when
`c0` is named — when `c0` is unnamed the error carries no note. -/
theorem C3_validate_names :
    (∀ sp, Pattern.validate (.wild sp) = .ok ()) ∧
    (∀ (c0 : CallPattern) (rest : List CallPattern),
      (∀ c ∈ rest, identOptEq c0.name c.name = true) →
      Pattern.validate (.calls (c0 :: rest)) = .ok ()) ∧
    (∀ (c0 : CallPattern) (pre : List CallPattern) (ci : CallPattern)
      (post : List CallPattern),
      (∀ c ∈ pre, identOptEq c0.name c.name = true) →
      identOptEq c0.name ci.name = false →
      Pattern.validate (.calls (c0 :: (pre ++ ci :: post))) =
        .error (mismatchDiag c0 ci)) := by
  refine ⟨fun sp => rfl, ?_, ?_⟩
  · intro c0 rest h
    show Pattern.validateGo c0.name (c0 :: rest) = .ok ()
    simp only [Pattern.validateGo, identOptEq_refl, if_true]
    exact validateGo_ok c0.name rest h
  · intro c0 pre ci post hpre hci
    show Pattern.validateGo c0.name (c0 :: (pre ++ ci :: post)) = .error (mismatchDiag c0 ci)
    simp only [Pattern.validateGo, identOptEq_refl, if_true]
    rw [validateGo_append c0.name pre _ hpre]
    simp only [Pattern.validateGo, hci, if_false, Bool.false_eq_true]
    rfl

/-- C3 witness: the theorem applied to the spec's example `n @ f(1) | m @
g(2)`: rejected with primary span at `m` and a secondary note at `n`'s
declaration. -/
theorem C3_validate_names_witness :
    Pattern.validate (.calls [c3cpN, c3cpM]) =
      .error ⟨⟨5,5⟩, "captured name differs from declaration", [(⟨11,11⟩, "declared here")]⟩ :=
  C3_validate_names.2.2 c3cpN [] c3cpM [] (by intro c hc; simp at hc) (by decide)

/-- A switch stream whose bracketed header holds an identifier `info`, the
literal input expression `a`, the literal marker expression `b` and the
output type identifier `ity`, followed by no cases at all. -/
def c7Stream (info : String) (a b : Nat) (ity : String)
    (sp1 sp2 sp3 sp4 sp5 sp6 sp7 gsp esp : Span) : CStream :=
  ⟨[.group .bracket [.identTok info sp1, .semiTok sp2, .litInt a sp3, .semiTok sp4,
      .litInt b sp5, .semiTok sp6, .identTok ity sp7] gsp], esp⟩

/-- C7: a switch whose body holds zero cases after a well-formed header
fails with the `switch cannot be empty` rejection, for every header content
(identifier, input and marker literals, output type, and all spans) — the
empty-case check does not depend on the header. -/
theorem C7_empty_switch_rejected (info ity : String) (a b : Nat)
    (sp1 sp2 sp3 sp4 sp5 sp6 sp7 gsp esp : Span) :
    Switch.parse 10 (c7Stream info a b ity sp1 sp2 sp3 sp4 sp5 sp6 sp7 gsp esp) =
      .err (Span.error esp "switch cannot be empty") ⟨[], esp⟩ := rfl

/-- A call pattern stream `f(1)` with no `identifier @` prefix. -/
def c8Stream : CStream := ⟨[.identTok "f" ⟨1,1⟩, .group .paren [.litInt 1 ⟨3,3⟩] ⟨2,2⟩], ⟨4,4⟩⟩

/-- The call pattern `f(1)` parsed from `c8Stream`. -/
def c8CP : CallPattern := ⟨none, none, ⟨⟨"f", ⟨1,1⟩⟩, ⟨2,2⟩, [.lit 1 ⟨3,3⟩]⟩⟩

/-- What `CallPattern::parse` would be had the speculative prefix attempt
never happened: parse the call expression from the original position, with
no name and no marker (stated from the spec's words for comparison). -/
def cpDirect (fuel : Nat) : SynP CallPattern := fun s =>
  (parse_expr_call fuel s).bind fun e s2 => .ok ⟨none, none, e⟩ s2

/-- C8: whenever the speculative `identifier @` prefix attempt fails,
`try_parse` leaves the stream exactly as it was before the attempt, and
`CallPattern::parse` behaves exactly as a parse of the mandatory call
expression from the original position with no name and no marker — as if
the attempt had never happened. -/
theorem C8_try_parse_restores (fuel : Nat) (s s1 : CStream) (e : Diag)
    (h : nameAtP s = .err e s1) :
    try_parse nameAtP s = .err e s ∧
    CallPattern.parse fuel s = cpDirect fuel s := by
  constructor
  · simp [try_parse, h]
  · simp [CallPattern.parse, try_parse, h, cpDirect]

/-- C8 witness: the theorem applied to the stream `f(1)`, where the prefix
attempt fails at the parenthesis. -/
theorem C8_try_parse_restores_witness :
    try_parse nameAtP c8Stream =
      .err (Span.error ⟨2,2⟩ "expected at sign") c8Stream ∧
    CallPattern.parse 5 c8Stream = cpDirect 5 c8Stream :=
  C8_try_parse_restores 5 c8Stream
    ⟨[.group .paren [.litInt 1 ⟨3,3⟩] ⟨2,2⟩], ⟨4,4⟩⟩
    (Span.error ⟨2,2⟩ "expected at sign") rfl

/-- C9: every `CallPattern` produced by a successful parse has its capture
name and its `@` marker either both present or both absent. -/
theorem C9_name_at_invariant (fuel : Nat) (s s2 : CStream) (cp : CallPattern)
    (h : CallPattern.parse fuel s = .ok cp s2) :
    cp.name.isSome ↔ cp.atSpan.isSome := by
  simp only [CallPattern.parse] at h
  cases htp : try_parse nameAtP s with
  | ok v s1 =>
    obtain ⟨id, atSp⟩ := v
    rw [htp] at h
    dsimp only at h
    cases hec : parse_expr_call fuel s1 with
    | ok ec s3 => rw [hec] at h; dsimp only [SynRes.bind] at h; cases h; simp
    | err d s3 => rw [hec] at h; exact SynRes.noConfusion h
    | timeout => rw [hec] at h; exact SynRes.noConfusion h
  | err d s1 =>
    rw [htp] at h
    dsimp only at h
    cases hec : parse_expr_call fuel s with
    | ok ec s3 => rw [hec] at h; dsimp only [SynRes.bind] at h; cases h; simp
    | err d2 s3 => rw [hec] at h; exact SynRes.noConfusion h
    | timeout => rw [hec] at h; exact SynRes.noConfusion h
  | timeout => rw [htp] at h; exact SynRes.noConfusion h

/-- C9 witness: the invariant applied to the parse of `f(1)`. -/
theorem C9_name_at_invariant_witness :
    CallPattern.parse 5 c8Stream = .ok c8CP ⟨[], ⟨4,4⟩⟩ ∧
    (c8CP.name.isSome ↔ c8CP.atSpan.isSome) :=
  ⟨rfl, C9_name_at_invariant 5 c8Stream ⟨[], ⟨4,4⟩⟩ c8CP rfl⟩

/-- The switch `[info; 7; m; u32] A(x) => 1` as a token stream: the header
identifier and the marker expression vary, the rest is fixed. -/
def c10Stream (info : String) (m : Nat) : CStream :=
  ⟨[.group .bracket [.identTok info ⟨1,1⟩, .semiTok ⟨2,2⟩, .litInt 7 ⟨3,3⟩, .semiTok ⟨4,4⟩,
      .litInt m ⟨5,5⟩, .semiTok ⟨6,6⟩, .identTok "u32" ⟨7,7⟩] ⟨0,0⟩,
    .identTok "A" ⟨8,8⟩, .group .paren [.identTok "x" ⟨10,10⟩] ⟨9,9⟩, .fatArrow ⟨11,11⟩,
      .litInt 1 ⟨12,12⟩], ⟨13,13⟩⟩

/-- The `Switch` value parsed from `c10Stream`: only the input expression,
the output type and the cases appear. -/
def c10Switch : Switch :=
  ⟨.lit 7 ⟨3,3⟩, ⟨"u32", ⟨7,7⟩⟩,
   [⟨.calls [⟨none, none, ⟨⟨"A", ⟨8,8⟩⟩, ⟨9,9⟩, [.var ⟨"x", ⟨10,10⟩⟩]⟩⟩], .lit 1 ⟨12,12⟩, ⟨8,13⟩⟩]⟩

/-- `c10Stream` with the marker expression missing from the header. -/
def c10NoMarker : CStream :=
  ⟨[.group .bracket [.identTok "sw" ⟨1,1⟩, .semiTok ⟨2,2⟩, .litInt 7 ⟨3,3⟩, .semiTok ⟨4,4⟩,
      .semiTok ⟨6,6⟩, .identTok "u32" ⟨7,7⟩] ⟨0,0⟩,
    .identTok "A" ⟨8,8⟩, .group .paren [.identTok "x" ⟨10,10⟩] ⟨9,9⟩, .fatArrow ⟨11,11⟩,
      .litInt 1 ⟨12,12⟩], ⟨13,13⟩⟩

/-- `c10Stream` with the free-form header identifier missing. -/
def c10NoInfo : CStream :=
  ⟨[.group .bracket [.semiTok ⟨2,2⟩, .litInt 7 ⟨3,3⟩, .semiTok ⟨4,4⟩,
      .litInt 8 ⟨5,5⟩, .semiTok ⟨6,6⟩, .identTok "u32" ⟨7,7⟩] ⟨0,0⟩,
    .identTok "A" ⟨8,8⟩, .group .paren [.identTok "x" ⟨10,10⟩] ⟨9,9⟩, .fatArrow ⟨11,11⟩,
      .litInt 1 ⟨12,12⟩], ⟨13,13⟩⟩

/-- C10: a successfully parsed switch retains only the input expression,
the output type and the cases: for every header identifier and every marker
literal the parse of `[info; 7; m; u32] A(x) => 1` succeeds with the same
`Switch` value, in which neither the identifier nor the marker appears; yet
both are required — a stream missing the marker or the identifier fails. -/
theorem C10_header_discarded :
    (∀ (info : String) (m : Nat),
      Switch.parse 10 (c10Stream info m) = .ok c10Switch ⟨[], ⟨13,13⟩⟩) ∧
    (∃ d s, Switch.parse 10 c10NoMarker = .err d s) ∧
    (∃ d s, Switch.parse 10 c10NoInfo = .err d s) :=
  ⟨fun _ _ => rfl, ⟨_, _, rfl⟩, ⟨_, _, rfl⟩⟩

end Pear
